import Mathlib

/-!
# Intel_RealSense_MXSP4: a shallow embedding of `Intel_RealSense_MXSP4.cpp`

The example program acquires frames from a depth camera, copies the point
cloud into an imaging-library container and maps the colour image onto it.
This development embeds

* the two value records `SPoint3d` and `SColor` with `SColor::ConvertRGBBGR`,
* the texture-coordinate-to-pixel mapping and the colour-byte offsets of the
  per-pixel loop,
* the nested per-pixel loop of one acquisition cycle,
* `GetMILContainerComponent` over a small model of the imaging library's
  container calls,
* the initialisation of the texture size and of the reflectance pointer,
* the control flow of `main` and of the two `catch` clauses.

Conventions. A `MIL_FLOAT` or `float` value is carried as the rational it
denotes; a floating operation (the conversion of an integer, the product of
line 295) rounds its exact result to the nearest 32-bit binary value, ties to
even, as `roundFloat` does.  `MIL_INT` is a
signed and `MIL_UINT` an unsigned 64-bit integer; values are carried in `Int`
and `Nat`, and every conversion to `MIL_UINT` and every unsigned operation
reduces modulo `2 ^ 64`.  Pointers are host addresses in `Nat`, `0` being
`nullptr`.  An operation whose behaviour the language leaves undefined (a
modulo by zero, a write through `nullptr`, a read past the end of the colour
data) yields `none`.
-/

set_option linter.unusedVariables false

namespace RealSenseMXSP4

/-! ## Value records -/

/-- The record `struct SPoint3d`: three `MIL_FLOAT` coordinates. -/
structure SPoint3d where
  x : ℚ
  y : ℚ
  z : ℚ
deriving DecidableEq

/-- The record `struct SColor`: four `MIL_UINT8` channels. -/
structure SColor where
  x : Nat
  y : Nat
  z : Nat
  a : Nat
deriving DecidableEq

/-- The record `struct SPoint2d`: a normalized texture coordinate, two
`MIL_FLOAT` fields `u` and `v`.  The entries of `tex_coords`, which the SDK
hands out with the same two fields, are carried in this record. -/
structure SPoint2d where
  u : ℚ
  v : ℚ
deriving DecidableEq

/-- The method `SColor::ConvertRGBBGR`, run on a store of colour records.
`self` is the location of the record the method is called on, `other` the
location `OtherColor` refers to.  The three assignments are executed in
source order, each one reading the store the previous one left. -/
def ConvertRGBBGR (mem : Nat → SColor) (self other : Nat) : Nat → SColor :=
  let m1 := Function.update mem self { mem self with x := (mem other).z }
  let m2 := Function.update m1 self { m1 self with y := (m1 other).y }
  Function.update m2 self { m2 self with z := (m2 other).x }

/-! ## Machine integers -/

/-- The number of values of a `MIL_UINT`. -/
def MIL_UINT_RANGE : Nat := 2 ^ 64

/-- A value is representable as a `MIL_INT` (signed, 64 bits). -/
def IsMilInt (z : Int) : Prop := -(2 ^ 63) ≤ z ∧ z < 2 ^ 63

instance (z : Int) : Decidable (IsMilInt z) := by
  unfold IsMilInt; exact inferInstance

/-- Conversion of a `MIL_INT` to `MIL_UINT` (the usual arithmetic conversion
applied when the other operand is unsigned). -/
def toMIL_UINT (z : Int) : Nat := (z % (MIL_UINT_RANGE : Int)).toNat

/-- The cast `(MIL_UINT)` of a floating value: the fractional part is
discarded (truncation toward zero). -/
def floatToMIL_UINT (q : ℚ) : Nat := toMIL_UINT (if 0 ≤ q then ⌊q⌋ else ⌈q⌉)

/-! ## 32-bit floating arithmetic -/

/-- Rounding of a rational to the nearest integer, a tie going to the even
integer. -/
def roundHalfEven (n : ℚ) : Int :=
  if n - (⌊n⌋ : ℚ) < 1 / 2 then ⌊n⌋
  else if 1 / 2 < n - (⌊n⌋ : ℚ) then ⌊n⌋ + 1
  else if ⌊n⌋ % 2 = 0 then ⌊n⌋ else ⌊n⌋ + 1

/-- The binary exponent at which a magnitude `a` is rounded in the 32-bit
format: `floor (log2 a)`, and -126 throughout the subnormal range. -/
def binade (a : ℚ) : Int := max (Int.log 2 a) (-126)

/-- The unit in the last place at magnitude `a`: the format keeps 24
significant bits. -/
def ulp32 (a : ℚ) : ℚ := (2 : ℚ) ^ (binade a - 23)

/-- Rounding of an exact result to the nearest value of the 32-bit binary
format, ties to even (the default rounding of `float` arithmetic).  The
exponent is not bounded above: the loop evaluates the texture mapping only on
coordinates between 0 and 1 and sizes of type `MIL_INT`, where every result is
at most `2 ^ 63` and the format cannot overflow. -/
def roundFloat (q : ℚ) : ℚ := (roundHalfEven (q / ulp32 |q|) : ℚ) * ulp32 |q|

/-- The conversion of a `MIL_INT` to `float`, applied to `TextureWidth` and
`TextureHeight` when they meet a `float` operand. -/
def intToFloat (z : Int) : ℚ := roundFloat (z : ℚ)

/-- The product of two `float` values. -/
def floatMul (a b : ℚ) : ℚ := roundFloat (a * b)

/-! ## Texture mapping -/

/-- The expression `(MIL_UINT)(t * TextureSize) % TextureSize` of lines 295
and 296.  The product is a `float` product (`TextureSize` converted to
`float`, the result rounded), the cast truncates it, and the remainder is
unsigned (`TextureSize` converted to `MIL_UINT`); a zero divisor is
undefined. -/
def mappedIndex (t : ℚ) (TextureSize : Int) : Option Nat :=
  if toMIL_UINT TextureSize = 0 then none
  else some (floatToMIL_UINT (floatMul t (intToFloat TextureSize)) % toMIL_UINT TextureSize)

/-- Line 295: `mappedX = (MIL_UINT)(tex_coords[p].u * TextureWidth) % TextureWidth`. -/
def mappedX (tc : SPoint2d) (TextureWidth : Int) : Option Nat :=
  mappedIndex tc.u TextureWidth

/-- Line 296: `mappedY = (MIL_UINT)(tex_coords[p].v * TextureHeight) % TextureHeight`. -/
def mappedY (tc : SPoint2d) (TextureHeight : Int) : Option Nat :=
  mappedIndex tc.v TextureHeight

/-- The index expression `(mappedY * stride + 3 * mappedX) + k` of lines 297
to 299 (`k` is 0, 1, 2), evaluated in `MIL_UINT` arithmetic. -/
def colorOffset (mX mY : Nat) (stride : Int) (k : Nat) : Nat :=
  (((mY * toMIL_UINT stride) % MIL_UINT_RANGE + (3 * mX) % MIL_UINT_RANGE) % MIL_UINT_RANGE + k)
    % MIL_UINT_RANGE

/-- Reading `ColorData[i]`: the colour frame's data is a finite run of bytes;
a read past its end is undefined. -/
def readColorData (ColorData : List Nat) (i : Nat) : Option Nat := ColorData[i]?

/-! ## The per-pixel loop of one acquisition cycle -/

/-- The compile-time switch `#define EXTRACT_CONFIDENCE 0`. -/
def EXTRACT_CONFIDENCE : Bool := false

/-- What one acquisition cycle reads from the camera SDK before the loop
(lines 259 to 278): whether a colour frame is present (`if (color)`), the
vertex and texture-coordinate arrays, the stride and the bytes of the colour
frame, and the confidence bytes. -/
structure FrameData where
  color : Bool
  vertices : Nat → SPoint3d
  tex_coords : Nat → SPoint2d
  stride : Int
  ColorData : List Nat
  ConfidenceData : List Nat

/-- The variables fixed during initialisation that the loop reads. -/
structure LoopEnv where
  PointCloudsWidth : Int
  PointCloudsHeight : Int
  TextureWidth : Int
  TextureHeight : Int
  pPointCloud : Nat
  pReflectance : Nat
  pConfidence : Nat
  ConfidencePitch : Int

/-- The contents of the host buffers the loop writes, each indexed from the
pointer that addresses it. -/
structure Buffers where
  PointCloud : Nat → SPoint3d
  Reflectance : Nat → SColor
  Confidence : Int → Nat

/-- The test of line 289 on the texture coordinate of a pixel. -/
def inUnitSquare (tc : SPoint2d) : Prop :=
  0 ≤ tc.u ∧ tc.u ≤ 1 ∧ 0 ≤ tc.v ∧ tc.v ≤ 1

instance (tc : SPoint2d) : Decidable (inUnitSquare tc) := by
  unfold inUnitSquare; exact inferInstance

/-- The three assignments `pPointCloud[p].x = vertices[p].x` (and `.y`, `.z`),
lines 291 to 293 and 304 to 306. -/
def writePoint (env : LoopEnv) (fr : FrameData) (p : Nat) (b : Buffers) : Option Buffers :=
  if env.pPointCloud = 0 then none
  else
    let v : SPoint3d := { x := (fr.vertices p).x, y := (fr.vertices p).y, z := (fr.vertices p).z }
    some { b with PointCloud := Function.update b.PointCloud p v }

/-- The texture lookup of lines 295 to 299: the two mapped indices, then the
three colour bytes stored into channels `x`, `y`, `z` of `pReflectance[p]`. -/
def writeReflectance (env : LoopEnv) (fr : FrameData) (p : Nat) (b : Buffers) : Option Buffers :=
  match mappedX (fr.tex_coords p) env.TextureWidth,
        mappedY (fr.tex_coords p) env.TextureHeight with
  | some mX, some mY =>
    match readColorData fr.ColorData (colorOffset mX mY fr.stride 0),
          readColorData fr.ColorData (colorOffset mX mY fr.stride 1),
          readColorData fr.ColorData (colorOffset mX mY fr.stride 2) with
    | some c0, some c1, some c2 =>
      if env.pReflectance = 0 then none
      else
        let c : SColor := { b.Reflectance p with x := c0, y := c1, z := c2 }
        some { b with Reflectance := Function.update b.Reflectance p c }
    | _, _, _ => none
  | _, _ => none

/-- The statement `pConfidence[x + y * ConfidencePitch] = ConfidenceData[p]`
of line 311. -/
def writeConfidence (env : LoopEnv) (fr : FrameData) (y x p : Nat) (b : Buffers) : Option Buffers :=
  match fr.ConfidenceData[p]? with
  | some c =>
    if env.pConfidence = 0 then none
    else
      let i : Int := (x : Int) + (y : Int) * env.ConfidencePitch
      some { b with Confidence := Function.update b.Confidence i c }
  | none => none

/-- The body of the inner loop, lines 286 to 312, for row `y`, column `x` and
running counter `p` (the increment `p++` belongs to the loop below). -/
def pixelBody (env : LoopEnv) (fr : FrameData) (y x p : Nat) (b : Buffers) : Option Buffers :=
  let colourStep : Option Buffers :=
    if fr.color then
      if inUnitSquare (fr.tex_coords p) then
        (writePoint env fr p b).bind (writeReflectance env fr p)
      else some b
    else writePoint env fr p b
  colourStep.bind fun b1 =>
    if EXTRACT_CONFIDENCE then writeConfidence env fr y x p b1 else some b1

/-- The inner loop `for (x = ..; x < PointCloudsWidth; x++) { body; p++; }`
with `n` iterations left, started at column `x` with counter `p`.  It returns
the counter and the state at exit. -/
def colLoop {σ : Type} (body : Nat → Nat → Nat → σ → Option σ) (y : Nat) :
    Nat → Nat → Nat → σ → Option (Nat × σ)
  | 0, _, p, s => some (p, s)
  | n + 1, x, p, s =>
    match body y x p s with
    | none => none
    | some s1 => colLoop body y n (x + 1) (p + 1) s1

/-- The outer loop `for (y = ..; y < PointCloudsHeight; y++)` with `m` rows
left, started at row `y` with counter `p`; every row runs the inner loop from
column 0 over `W` columns. -/
def rowLoop {σ : Type} (body : Nat → Nat → Nat → σ → Option σ) (W : Nat) :
    Nat → Nat → Nat → σ → Option (Nat × σ)
  | 0, _, p, s => some (p, s)
  | m + 1, y, p, s =>
    match colLoop body y W 0 p s with
    | none => none
    | some (p1, s1) => rowLoop body W m (y + 1) p1 s1

/-- The nested loop of lines 280 to 315: `p = 0`, rows `0 .. PointCloudsHeight`,
columns `0 .. PointCloudsWidth`.  A bound that is not positive gives no
iteration. -/
def pixelLoop {σ : Type} (body : Nat → Nat → Nat → σ → Option σ)
    (PointCloudsWidth PointCloudsHeight : Int) (s : σ) : Option (Nat × σ) :=
  rowLoop body PointCloudsWidth.toNat PointCloudsHeight.toNat 0 0 s

/-- One pass of the per-pixel loop over the buffers. -/
def framePass (env : LoopEnv) (fr : FrameData) (b : Buffers) : Option (Nat × Buffers) :=
  pixelLoop (pixelBody env fr) env.PointCloudsWidth env.PointCloudsHeight b

/-- One execution of the loop body, as seen from outside: row, column and the
value of the running counter at the start of the body. -/
structure Visit where
  y : Nat
  x : Nat
  p : Nat
deriving DecidableEq, Repr

/-- The loop body that only records where it is run. -/
def recordVisit (y x p : Nat) (tr : List Visit) : Option (List Visit) :=
  some (tr ++ [{ y := y, x := x, p := p }])

/-- Running a body at a list of visits, in order. -/
def runVisits {σ : Type} (body : Nat → Nat → Nat → σ → Option σ) : List Visit → σ → Option σ
  | [], s => some s
  | v :: vs, s =>
    match body v.y v.x v.p s with
    | none => none
    | some s1 => runVisits body vs s1

/-- The visit with running counter `p` in an image `W` pixels wide: row
`p / W`, column `p % W`. -/
def visitAt (W p : Nat) : Visit := { y := p / W, x := p % W, p := p }

/-- The visits the linear-index invariant describes: the counter `p` runs
through `0 .. W * H` in increasing order, each value once. -/
def linearVisits (W H : Nat) : List Visit :=
  (List.range (W * H)).map (visitAt W)

/-! ## The imaging library's container calls -/

/-- The null identifier `M_NULL`. -/
def M_NULL : Nat := 0

/-- The numeric constants of `mil.h` the program passes to the library.  Their
values are not part of the program; they are taken as parameters. -/
structure MilConstants where
  M_COMPONENT_RANGE : Int
  M_COMPONENT_REFLECTANCE : Int
  M_COMPONENT_CONFIDENCE : Int
  M_FLOAT : Int
  M_UNSIGNED : Int
  M_IMAGE : Int
  M_PROC : Int
  M_PACKED : Int
  M_RGB96 : Int
  M_RGB32 : Int

/-- One call of `MbufAllocComponent`, as the library receives it, with the
identifier it handed out. -/
structure ComponentAlloc where
  container : Nat
  NbBands : Int
  SizeX : Int
  SizeY : Int
  DataType : Int
  Attribute : Int
  ComponentIdFlag : Int
  id : Nat
deriving DecidableEq

/-- Modelled from the spec: the state of the imaging library, which is not part
of this repository.  A container is a map from component flag to component
identifier (`M_NULL` where the container holds no such component); every
component exposes a host address and a row pitch; `allocated` lists the
component allocations made so far, newest first, and `lastId` is the last
identifier handed out. -/
structure MilState where
  component : Nat → Int → Nat
  hostAddress : Nat → Nat
  pitch : Nat → Int
  allocated : List ComponentAlloc
  lastId : Nat

/-- Modelled from the spec: `MbufInquireContainer(MilContainer, ComponentIdFlag,
M_COMPONENT_ID, M_NULL)` returns the identifier the container holds under the
flag, `M_NULL` if there is none. -/
def MbufInquireContainer (st : MilState) (MilContainer : Nat) (ComponentIdFlag : Int) : Nat :=
  st.component MilContainer ComponentIdFlag

/-- Modelled from the spec: `MbufAllocComponent` allocates a component of the
container under the flag and stores its (fresh, non-null) identifier in the
last argument. -/
def MbufAllocComponent (st : MilState) (MilContainer : Nat)
    (NbBands SizeX SizeY DataType Attribute ComponentIdFlag : Int) : MilState × Nat :=
  let id := st.lastId + 1
  ({ st with
      component := fun c f =>
        if c = MilContainer ∧ f = ComponentIdFlag then id else st.component c f
      allocated :=
        { container := MilContainer, NbBands := NbBands, SizeX := SizeX, SizeY := SizeY,
          DataType := DataType, Attribute := Attribute, ComponentIdFlag := ComponentIdFlag,
          id := id } :: st.allocated
      lastId := id }, id)

/-- Modelled from the spec: `MbufInquire(MilComponent, M_HOST_ADDRESS, pData)`
stores the host address of the component; on a null identifier the variable
keeps the value `old` it had. -/
def MbufInquireHostAddress (st : MilState) (MilComponent : Nat) (old : Nat) : Nat :=
  if MilComponent = M_NULL then old else st.hostAddress MilComponent

/-- Modelled from the spec: `MbufInquire(MilComponent, M_PITCH, pPitch)` stores
the row pitch of the component; on a null identifier the variable keeps the
value `old` it had. -/
def MbufInquirePitch (st : MilState) (MilComponent : Nat) (old : Int) : Int :=
  if MilComponent = M_NULL then old else st.pitch MilComponent

/-- What a call of `GetMILContainerComponent` leaves: the library state, the
returned identifier, and the values of `*pData` and `*pPitch`. -/
structure ComponentResult where
  mil : MilState
  MilComponent : Nat
  data : Nat
  pitch : Int

/-- The function template `GetMILContainerComponent`, lines 342 to 357.
`pData` and `pPitch` are the values the two output variables hold at the
call; `DataType` is the parameter `Type`. -/
def GetMILContainerComponent (st : MilState) (MilSystem MilContainer : Nat)
    (ComponentIdFlag NbBands SizeX SizeY DataType Attribute : Int)
    (pData : Nat) (pPitch : Int) : ComponentResult :=
  let MilComponent0 := MbufInquireContainer st MilContainer ComponentIdFlag
  let r : MilState × Nat :=
    if MilComponent0 = M_NULL then
      MbufAllocComponent st MilContainer NbBands SizeX SizeY DataType Attribute ComponentIdFlag
    else (st, MilComponent0)
  { mil := r.1
    MilComponent := r.2
    data := MbufInquireHostAddress r.1 r.2 pData
    pitch := MbufInquirePitch r.1 r.2 pPitch }

/-! ## Initialisation -/

/-- The pixel format of a colour frame, as far as the program looks at it:
`RS2_FORMAT_RGB8` or any other value of the SDK enumeration. -/
inductive rs2_format where
  | RS2_FORMAT_RGB8
  | other (code : Nat)
deriving DecidableEq

/-- What the program reads from a colour frame during initialisation. -/
structure ColorFrame where
  format : rs2_format
  width : Int
  height : Int

/-- What initialisation leaves for the acquisition loop. -/
structure InitResult where
  mil : MilState
  env : LoopEnv
  RangeComponent : Nat
  ReflectanceComponent : Nat
  ConfidenceComponent : Nat

/-- Lines 170 to 222 of `InterfaceRealSense`: the sizes of the first depth
frame, the texture size, and the three components.  `color` is the colour
frame of the first frame set, `none` when that frame set has no colour frame.
The pitch variables, which the source leaves uninitialised, start at 0. -/
def initialise (K : MilConstants) (st : MilState) (MilSystem PointCloudContainer : Nat)
    (depthWidth depthHeight : Int) (color : Option ColorFrame) : InitResult :=
  let PointCloudsWidth := depthWidth
  let PointCloudsHeight := depthHeight
  let range := GetMILContainerComponent st MilSystem PointCloudContainer K.M_COMPONENT_RANGE
    3 PointCloudsWidth PointCloudsHeight (32 + K.M_FLOAT)
    (K.M_IMAGE + K.M_PROC + K.M_PACKED + K.M_RGB96) 0 0
  let noTexture : ComponentResult := { mil := range.mil, MilComponent := M_NULL, data := 0, pitch := 0 }
  let tex : Int × Int × ComponentResult :=
    match color with
    | some c =>
      if c.format = rs2_format.RS2_FORMAT_RGB8 then
        (c.width, c.height,
          GetMILContainerComponent range.mil MilSystem PointCloudContainer
            K.M_COMPONENT_REFLECTANCE 3 PointCloudsWidth PointCloudsHeight (8 + K.M_UNSIGNED)
            (K.M_IMAGE + K.M_PROC + K.M_RGB32 + K.M_PACKED) 0 0)
      else (0, 0, noTexture)
    | none => (0, 0, noTexture)
  let refl := tex.2.2
  let conf : ComponentResult :=
    if EXTRACT_CONFIDENCE then
      GetMILContainerComponent refl.mil MilSystem PointCloudContainer K.M_COMPONENT_CONFIDENCE
        1 PointCloudsWidth PointCloudsHeight (8 + K.M_UNSIGNED) (K.M_IMAGE + K.M_PROC) 0 0
    else { mil := refl.mil, MilComponent := M_NULL, data := 0, pitch := 0 }
  { mil := conf.mil
    env :=
      { PointCloudsWidth := PointCloudsWidth
        PointCloudsHeight := PointCloudsHeight
        TextureWidth := tex.1
        TextureHeight := tex.2.1
        pPointCloud := range.data
        pReflectance := refl.data
        pConfidence := conf.data
        ConfidencePitch := conf.pitch }
    RangeComponent := range.MilComponent
    ReflectanceComponent := refl.MilComponent
    ConfidenceComponent := conf.MilComponent }

/-- The loop executes the colour-mapping branch at pixel `p`: the tests of
lines 287 and 289 both succeed. -/
def colourBranch (fr : FrameData) (p : Nat) : Prop :=
  fr.color = true ∧ inUnitSquare (fr.tex_coords p)

/-- A sufficient condition for one pass of the loop to be free of undefined
behaviour: the point-cloud pointer is not null and, when a colour frame is
present, the reflectance pointer is not null, the texture size is a positive
`MIL_INT` pair, a row of the texture fits in the stride, and the colour data
holds `stride * TextureHeight` bytes. -/
def PassSafe (env : LoopEnv) (fr : FrameData) : Prop :=
  env.pPointCloud ≠ 0 ∧
  (fr.color = true →
    env.pReflectance ≠ 0 ∧
    0 < env.TextureWidth ∧ IsMilInt env.TextureWidth ∧
    0 < env.TextureHeight ∧ IsMilInt env.TextureHeight ∧
    3 * env.TextureWidth ≤ fr.stride ∧
    (fr.ColorData.length : Int) = fr.stride * env.TextureHeight)

/-- The reflectance update rule at pixel `p`, relating the record `old` held
before the body runs to the record `new` held after it: in the colour-mapping
branch the channels `x`, `y`, `z` are the three colour bytes read at the
offsets of the mapped indices and `a` is kept; otherwise the record is kept. -/
def ReflectanceAfter (env : LoopEnv) (fr : FrameData) (p : Nat) (old new : SColor) : Prop :=
  (colourBranch fr p →
    ∃ mX mY : Nat,
      mappedX (fr.tex_coords p) env.TextureWidth = some mX ∧
      mappedY (fr.tex_coords p) env.TextureHeight = some mY ∧
      readColorData fr.ColorData (colorOffset mX mY fr.stride 0) = some new.x ∧
      readColorData fr.ColorData (colorOffset mX mY fr.stride 1) = some new.y ∧
      readColorData fr.ColorData (colorOffset mX mY fr.stride 2) = some new.z ∧
      new.a = old.a) ∧
  (¬ colourBranch fr p → new = old)

/-! ## Sample data -/

/-- A point cloud of 2 by 1 pixels over a texture of 2 by 2 pixels. -/
def sampleEnv : LoopEnv :=
  { PointCloudsWidth := 2, PointCloudsHeight := 1, TextureWidth := 2, TextureHeight := 2,
    pPointCloud := 4096, pReflectance := 8192, pConfidence := 0, ConfidencePitch := 0 }

/-- A frame set with a colour frame of 12 bytes (stride 6).  Pixel 0 has the
texture coordinate `(1/2, 1/2)`, every other pixel `(3/2, 1/2)`, which lies
outside the unit square. -/
def sampleFrame : FrameData :=
  { color := true
    vertices := fun p => { x := p, y := p + 1, z := p + 2 }
    tex_coords := fun p => if p = 0 then { u := 1 / 2, v := 1 / 2 } else { u := 3 / 2, v := 1 / 2 }
    stride := 6
    ColorData := [10, 11, 12, 13, 14, 15, 16, 17, 18, 19, 20, 21]
    ConfidenceData := [] }

/-- Buffers as an earlier cycle may have left them. -/
def sampleBuffers : Buffers :=
  { PointCloud := fun _ => { x := 7, y := 8, z := 9 }
    Reflectance := fun _ => { x := 1, y := 2, z := 3, a := 255 }
    Confidence := fun _ => 0 }

/-- A library state in which no component has been allocated yet; component
`id` is exposed at host address `4096 * id` with pitch 0. -/
def sampleMil : MilState :=
  { component := fun _ _ => 0
    hostAddress := fun id => 4096 * id
    pitch := fun _ => 0
    allocated := []
    lastId := 0 }

/-- A first colour frame of 640 by 480 pixels whose format is not
`RS2_FORMAT_RGB8`. -/
def sampleOtherFormat : ColorFrame :=
  { format := rs2_format.other 0, width := 640, height := 480 }

/-! ## Program exit -/

/-- The value of `EXIT_SUCCESS` of the C library. -/
def EXIT_SUCCESS : Int := 0

/-- The value of `EXIT_FAILURE` of the C library. -/
def EXIT_FAILURE : Int := 1

/-- The compile-time switch `#define REALSENSESDK_INSTALLED 0`. -/
def REALSENSESDK_INSTALLED : Bool := false

/-- How control leaves the `try` block of `InterfaceRealSense`: the acquisition
loop ends on a key press, the function returns early because no 3D display is
available (line 235), or an SDK call raises one of the two caught exception
categories. -/
inductive TryOutcome where
  | keyPressed
  | displayUnsupported
  | rs2_error (failed_function failed_args what : String)
  | std_exception (what : String)

/-- What a run of a function leaves: the lines written to the error stream,
whether it printed the prompt and waited for a key, and the returned status. -/
structure Run where
  cerr : List String
  waitedForKey : Bool
  status : Int

/-- The function `InterfaceRealSense`, as far as its exit is concerned: lines
230 to 236 and 320 to 335. -/
def InterfaceRealSense (t : TryOutcome) : Run :=
  match t with
  | .keyPressed => { cerr := [], waitedForKey := false, status := EXIT_SUCCESS }
  | .displayUnsupported => { cerr := [], waitedForKey := true, status := 0 }
  | .rs2_error f a w =>
    { cerr := ["RealSense error calling " ++ f ++ "(" ++ a ++ "):", "    " ++ w]
      waitedForKey := true
      status := EXIT_FAILURE }
  | .std_exception w => { cerr := [w], waitedForKey := true, status := EXIT_FAILURE }

/-- The function `main`, lines 95 to 142, for a value of the switch
`REALSENSESDK_INSTALLED`.  With the switch off it prints the set-up
instructions and waits for a key; with the switch on it calls
`InterfaceRealSense()` as an expression statement.  Both ways end in
`return 0`. -/
def main (installed : Bool) (t : TryOutcome) : Run :=
  if installed then
    let r := InterfaceRealSense t
    { cerr := r.cerr, waitedForKey := r.waitedForKey, status := 0 }
  else { cerr := [], waitedForKey := true, status := 0 }

/-! ## Facts about the machine integers -/

theorem toMIL_UINT_of_nonneg (z : Int) (h0 : 0 ≤ z) (h1 : z < 2 ^ 64) :
    (toMIL_UINT z : Int) = z := by
  unfold toMIL_UINT MIL_UINT_RANGE
  push_cast
  omega

theorem toMIL_UINT_le (z : Int) (h0 : 0 ≤ z) : (toMIL_UINT z : Int) ≤ z := by
  unfold toMIL_UINT MIL_UINT_RANGE
  push_cast
  omega

theorem toMIL_UINT_lt (z : Int) : toMIL_UINT z < 2 ^ 64 := by
  unfold toMIL_UINT MIL_UINT_RANGE
  push_cast
  omega

/-! ## Facts about 32-bit rounding -/

theorem roundHalfEven_le (n : ℚ) (m : Int) (h : n ≤ (m : ℚ)) : roundHalfEven n ≤ m := by
  have hf : ⌊n⌋ ≤ m := by
    have := Int.floor_mono h
    simpa using this
  unfold roundHalfEven
  have hstep : ¬ (n - (⌊n⌋ : ℚ) < 1 / 2) → ⌊n⌋ + 1 ≤ m := by
    intro hd
    by_contra hlt
    have hfm : ⌊n⌋ = m := by omega
    have h1 : (⌊n⌋ : ℚ) ≤ n := Int.floor_le n
    rw [hfm] at hd h1
    apply hd
    linarith
  split_ifs with h1 h2 h3
  · exact hf
  · exact hstep h1
  · exact hf
  · exact hstep h1

theorem le_roundHalfEven (n : ℚ) (m : Int) (h : (m : ℚ) ≤ n) : m ≤ roundHalfEven n := by
  have hf : m ≤ ⌊n⌋ := Int.le_floor.mpr h
  unfold roundHalfEven
  split_ifs <;> omega

theorem roundHalfEven_intCast (m : Int) : roundHalfEven (m : ℚ) = m :=
  le_antisymm (roundHalfEven_le _ m le_rfl) (le_roundHalfEven _ m le_rfl)

theorem binade_ge (a : ℚ) : -126 ≤ binade a := le_max_right _ _

theorem ulp32_pos (a : ℚ) : 0 < ulp32 a := by
  unfold ulp32
  positivity

theorem log_le_of_le_two_pow (a : ℚ) (k : Int) (ha : 0 < a) (h : a ≤ (2 : ℚ) ^ k) :
    Int.log 2 a ≤ k := by
  have h1 := Int.log_mono_right (b := 2) ha h
  have h2 : Int.log 2 ((2 : ℚ) ^ k) = k := by
    have := Int.log_zpow (R := ℚ) (b := 2) (by norm_num) k
    simpa using this
  rw [h2] at h1
  exact h1

theorem two_pow_binade_le (a : ℚ) (ha : 0 < a) (h : -126 < binade a) :
    (2 : ℚ) ^ binade a ≤ a := by
  have hb : binade a = Int.log 2 a := by
    unfold binade at h ⊢
    rcases max_cases (Int.log 2 a) (-126) with ⟨h1, _⟩ | ⟨h1, _⟩
    · exact h1
    · rw [h1] at h; exact absurd h (lt_irrefl _)
  rw [hb]
  have := Int.zpow_log_le_self (R := ℚ) (b := 2) (by norm_num) ha
  simpa using this

theorem roundFloat_nonneg (q : ℚ) (h : 0 ≤ q) : 0 ≤ roundFloat q := by
  unfold roundFloat
  have hu := ulp32_pos |q|
  have : (0 : Int) ≤ roundHalfEven (q / ulp32 |q|) := by
    apply le_roundHalfEven
    simp only [Int.cast_zero]
    exact div_nonneg h hu.le
  have h2 : (0 : ℚ) ≤ (roundHalfEven (q / ulp32 |q|) : ℚ) := by exact_mod_cast this
  exact mul_nonneg h2 hu.le

/-- A multiple of the unit in the last place is not crossed by rounding. -/
theorem roundFloat_le_grid (q : ℚ) (M : Int) (h : q ≤ (M : ℚ) * ulp32 |q|) :
    roundFloat q ≤ (M : ℚ) * ulp32 |q| := by
  unfold roundFloat
  have hu := ulp32_pos |q|
  have : roundHalfEven (q / ulp32 |q|) ≤ M := by
    apply roundHalfEven_le
    rw [div_le_iff₀ hu]
    exact h
  have h2 : (roundHalfEven (q / ulp32 |q|) : ℚ) ≤ (M : ℚ) := by exact_mod_cast this
  exact mul_le_mul_of_nonneg_right h2 hu.le

theorem grid_le_roundFloat (q : ℚ) (M : Int) (h : (M : ℚ) * ulp32 |q| ≤ q) :
    (M : ℚ) * ulp32 |q| ≤ roundFloat q := by
  unfold roundFloat
  have hu := ulp32_pos |q|
  have : M ≤ roundHalfEven (q / ulp32 |q|) := by
    apply le_roundHalfEven
    rw [le_div_iff₀ hu]
    exact h
  have h2 : (M : ℚ) ≤ (roundHalfEven (q / ulp32 |q|) : ℚ) := by exact_mod_cast this
  exact mul_le_mul_of_nonneg_right h2 hu.le

/-- A rational `x * 2 ^ j` with `j ≥ e - 23`, `x` an integer, is a multiple of `2 ^ (e - 23)`. -/
theorem grid_of_le (x : Int) (j e : Int) (h : e - 23 ≤ j) :
    ∃ M : Int, (x : ℚ) * (2 : ℚ) ^ j = (M : ℚ) * (2 : ℚ) ^ (e - 23) := by
  refine ⟨x * 2 ^ (j - (e - 23)).toNat, ?_⟩
  have hj : j = ((j - (e - 23)).toNat : Int) + (e - 23) := by omega
  have h2 : (2 : ℚ) ^ j = (2 : ℚ) ^ ((j - (e - 23)).toNat : Int) * (2 : ℚ) ^ (e - 23) := by
    rw [← zpow_add₀ (by norm_num : (2 : ℚ) ≠ 0), ← hj]
  rw [h2, zpow_natCast]
  push_cast
  ring

theorem roundFloat_zero : roundFloat 0 = 0 := by
  unfold roundFloat
  have h : roundHalfEven ((0 : Int) : ℚ) = 0 := roundHalfEven_intCast 0
  simp only [Int.cast_zero] at h
  rw [zero_div, h]
  simp

theorem binade_le_of_le_two_pow (x : ℚ) (k : Int) (hk : -126 ≤ k) (hx : 0 < x)
    (h : x ≤ (2 : ℚ) ^ k) : binade x ≤ k := by
  unfold binade
  exact max_le (log_le_of_le_two_pow x k hx h) hk

/-- Rounding does not cross a power of two from below. -/
theorem roundFloat_le_two_pow (x : ℚ) (k : Nat) (h0 : 0 ≤ x) (h : x ≤ (2 : ℚ) ^ k) :
    roundFloat x ≤ (2 : ℚ) ^ k := by
  rcases eq_or_lt_of_le h0 with h1 | hx
  · rw [← h1, roundFloat_zero]
    positivity
  · have habs : |x| = x := abs_of_pos hx
    have hz : (2 : ℚ) ^ k = (2 : ℚ) ^ (k : Int) := (zpow_natCast 2 k).symm
    have he : binade x ≤ (k : Int) :=
      binade_le_of_le_two_pow x k (by omega) hx (by rw [← hz]; exact h)
    obtain ⟨M, hM⟩ := grid_of_le 1 (k : Int) (binade x) (by omega)
    have hM1 : (2 : ℚ) ^ k = (M : ℚ) * ulp32 |x| := by
      rw [habs, hz]
      unfold ulp32
      rw [← hM]
      simp
    rw [hM1]
    apply roundFloat_le_grid
    rw [← hM1]
    exact h

/-- Rounding does not cross an integer of magnitude at most `2 ^ 24` from below. -/
theorem roundFloat_le_int (x : ℚ) (m : Int) (hx : 0 < x) (hm : m ≤ 2 ^ 24) (h : x ≤ (m : ℚ)) :
    roundFloat x ≤ (m : ℚ) := by
  have habs : |x| = x := abs_of_pos hx
  have hmq : (m : ℚ) ≤ (2 : ℚ) ^ (24 : Int) := by
    have : (m : ℚ) ≤ ((2 ^ 24 : Int) : ℚ) := by exact_mod_cast hm
    have e : (((2 : Int) ^ 24 : Int) : ℚ) = (2 : ℚ) ^ (24 : Int) := by norm_num
    rw [← e]
    exact this
  have he : binade x ≤ 24 := binade_le_of_le_two_pow x 24 (by omega) hx (le_trans h hmq)
  rcases lt_or_eq_of_le he with hlt | heq
  · obtain ⟨M, hM⟩ := grid_of_le m 0 (binade x) (by omega)
    have hM1 : (m : ℚ) = (M : ℚ) * ulp32 |x| := by
      rw [habs]
      unfold ulp32
      rw [← hM]
      simp
    rw [hM1]
    apply roundFloat_le_grid
    rw [← hM1]
    exact h
  · have hlow := two_pow_binade_le x hx (by omega)
    rw [heq] at hlow
    have hxm : (m : ℚ) = (2 : ℚ) ^ (24 : Nat) := by
      have e1 : (2 : ℚ) ^ (24 : Int) = (2 : ℚ) ^ (24 : Nat) := by norm_num
      rw [← e1]
      linarith
    rw [hxm]
    apply roundFloat_le_two_pow x 24 hx.le
    rw [← hxm]
    exact h

/-- Rounding does not cross an integer of magnitude at most `2 ^ 24` from above. -/
theorem int_le_roundFloat (x : ℚ) (m : Int) (hx : 0 < x) (hm : m ≤ 2 ^ 24) (h : (m : ℚ) ≤ x) :
    (m : ℚ) ≤ roundFloat x := by
  have habs : |x| = x := abs_of_pos hx
  have hmq : (m : ℚ) ≤ (2 : ℚ) ^ (24 : Int) := by
    have : (m : ℚ) ≤ ((2 ^ 24 : Int) : ℚ) := by exact_mod_cast hm
    have e : (((2 : Int) ^ 24 : Int) : ℚ) = (2 : ℚ) ^ (24 : Int) := by norm_num
    rw [← e]
    exact this
  rcases le_or_lt (binade x) 23 with hle | hgt
  · obtain ⟨M, hM⟩ := grid_of_le m 0 (binade x) (by omega)
    have hM1 : (m : ℚ) = (M : ℚ) * ulp32 |x| := by
      rw [habs]
      unfold ulp32
      rw [← hM]
      simp
    rw [hM1]
    apply grid_le_roundFloat
    rw [← hM1]
    exact h
  · have hlow := two_pow_binade_le x hx (by omega)
    obtain ⟨M, hM⟩ := grid_of_le 1 (binade x) (binade x) (by omega)
    have hM1 : (2 : ℚ) ^ binade x = (M : ℚ) * ulp32 |x| := by
      rw [habs]
      unfold ulp32
      rw [← hM]
      simp
    have h1 : (2 : ℚ) ^ binade x ≤ roundFloat x := by
      rw [hM1]
      apply grid_le_roundFloat
      rw [← hM1]
      exact hlow
    have h2 : (2 : ℚ) ^ (24 : Int) ≤ (2 : ℚ) ^ binade x :=
      zpow_le_zpow_right₀ (by norm_num) (by omega)
    linarith

/-- Integers of magnitude at most `2 ^ 24` are binary32 values. -/
theorem roundFloat_intCast (W : Int) (h0 : 0 < W) (h : W ≤ 2 ^ 24) :
    roundFloat (W : ℚ) = (W : ℚ) := by
  have hx : (0 : ℚ) < (W : ℚ) := by exact_mod_cast h0
  exact le_antisymm (roundFloat_le_int _ W hx h le_rfl) (int_le_roundFloat _ W hx h le_rfl)

theorem intToFloat_bounds (W : Int) (hW : 0 < W) (hWr : IsMilInt W) :
    0 ≤ intToFloat W ∧ intToFloat W ≤ (2 : ℚ) ^ 63 := by
  have h0 : (0 : ℚ) ≤ (W : ℚ) := by exact_mod_cast hW.le
  have h1 : (W : ℚ) ≤ (2 : ℚ) ^ 63 := by
    have : W ≤ 2 ^ 63 := hWr.2.le
    exact_mod_cast this
  exact ⟨roundFloat_nonneg _ h0, roundFloat_le_two_pow _ 63 h0 h1⟩

theorem floatMul_bounds (t : ℚ) (W : Int) (hW : 0 < W) (hWr : IsMilInt W)
    (h0 : 0 ≤ t) (h1 : t ≤ 1) :
    0 ≤ floatMul t (intToFloat W) ∧ floatMul t (intToFloat W) ≤ (2 : ℚ) ^ 63 := by
  obtain ⟨hw0, hw1⟩ := intToFloat_bounds W hW hWr
  have hp0 : 0 ≤ t * intToFloat W := mul_nonneg h0 hw0
  have hp1 : t * intToFloat W ≤ (2 : ℚ) ^ 63 := by nlinarith
  exact ⟨roundFloat_nonneg _ hp0, roundFloat_le_two_pow _ 63 hp0 hp1⟩

theorem floor_floatMul_bounds (t : ℚ) (W : Int) (hW : 0 < W) (hWr : IsMilInt W)
    (h0 : 0 ≤ t) (h1 : t ≤ 1) :
    0 ≤ ⌊floatMul t (intToFloat W)⌋ ∧ ⌊floatMul t (intToFloat W)⌋ ≤ 2 ^ 63 := by
  obtain ⟨hp0, hp1⟩ := floatMul_bounds t W hW hWr h0 h1
  refine ⟨Int.floor_nonneg.mpr hp0, ?_⟩
  have h2 : floatMul t (intToFloat W) ≤ (((2 : Int) ^ 63 : Int) : ℚ) := by
    push_cast
    exact hp1
  have := Int.floor_mono h2
  simpa using this

/-- On a coordinate in the unit interval and a positive `MIL_INT` size the
mapping is defined: it is the floor of the rounded product, reduced modulo the
size. -/
theorem mappedIndex_eq (t : ℚ) (W : Int) (hW : 0 < W) (hWr : IsMilInt W)
    (h0 : 0 ≤ t) (h1 : t ≤ 1) :
    mappedIndex t W = some (⌊floatMul t (intToFloat W)⌋ % W).toNat := by
  obtain ⟨hf0, hfW⟩ := floor_floatMul_bounds t W hW hWr h0 h1
  have hW64 : W < 2 ^ 64 := by have := hWr.2; omega
  have a : (toMIL_UINT ⌊floatMul t (intToFloat W)⌋ : Int) = ⌊floatMul t (intToFloat W)⌋ :=
    toMIL_UINT_of_nonneg _ hf0 (by omega)
  have b : (toMIL_UINT W : Int) = W := toMIL_UINT_of_nonneg _ hW.le hW64
  have hne : toMIL_UINT W ≠ 0 := by omega
  have hq : (0 : ℚ) ≤ floatMul t (intToFloat W) := (floatMul_bounds t W hW hWr h0 h1).1
  unfold mappedIndex floatToMIL_UINT
  rw [if_neg hne, if_pos hq]
  congr 1
  apply Int.ofNat.inj
  show ((toMIL_UINT ⌊floatMul t (intToFloat W)⌋ % toMIL_UINT W : Nat) : Int)
    = ((⌊floatMul t (intToFloat W)⌋ % W).toNat : Int)
  rw [Int.toNat_of_nonneg (Int.emod_nonneg _ (ne_of_gt hW))]
  push_cast
  rw [a, b]

theorem mappedIndex_bound (t : ℚ) (W : Int) (hW : 0 < W) (hWr : IsMilInt W)
    (h0 : 0 ≤ t) (h1 : t ≤ 1) :
    ∃ m : Nat, mappedIndex t W = some m ∧
      (m : Int) = ⌊floatMul t (intToFloat W)⌋ % W ∧ 0 ≤ (m : Int) ∧ (m : Int) < W := by
  refine ⟨(⌊floatMul t (intToFloat W)⌋ % W).toNat, mappedIndex_eq t W hW hWr h0 h1, ?_, ?_, ?_⟩
  · exact Int.toNat_of_nonneg (Int.emod_nonneg _ (ne_of_gt hW))
  · exact Int.ofNat_nonneg _
  · rw [Int.toNat_of_nonneg (Int.emod_nonneg _ (ne_of_gt hW))]
    exact Int.emod_lt_of_pos _ hW

theorem colorOffset_le (mX mY : Nat) (stride : Int) (k : Nat) (hs : 0 ≤ stride) :
    (colorOffset mX mY stride k : Int) ≤ (mY : Int) * stride + 3 * (mX : Int) + (k : Int) := by
  have h1 : colorOffset mX mY stride k ≤ mY * toMIL_UINT stride + 3 * mX + k := by
    unfold colorOffset MIL_UINT_RANGE
    omega
  have h2 : (toMIL_UINT stride : Int) ≤ stride := toMIL_UINT_le stride hs
  have h3 : (mY : Int) * (toMIL_UINT stride : Int) ≤ (mY : Int) * stride :=
    mul_le_mul_of_nonneg_left h2 (Int.ofNat_nonneg _)
  have h4 : (colorOffset mX mY stride k : Int)
      ≤ (mY : Int) * (toMIL_UINT stride : Int) + 3 * (mX : Int) + (k : Int) := by
    exact_mod_cast h1
  omega

theorem colorOffset_eq (mX mY : Nat) (stride : Int) (k : Nat) (hs : 0 ≤ stride)
    (hfit : (mY : Int) * stride + 3 * (mX : Int) + (k : Int) < 2 ^ 64) :
    (colorOffset mX mY stride k : Int) = (mY : Int) * stride + 3 * (mX : Int) + (k : Int) := by
  have h2 : (toMIL_UINT stride : Int) ≤ stride := toMIL_UINT_le stride hs
  have h3 : (mY : Int) * (toMIL_UINT stride : Int) ≤ (mY : Int) * stride :=
    mul_le_mul_of_nonneg_left h2 (Int.ofNat_nonneg _)
  have hfit2 : mY * toMIL_UINT stride + 3 * mX + k < 2 ^ 64 := by
    have : ((mY * toMIL_UINT stride + 3 * mX + k : Nat) : Int) < 2 ^ 64 := by
      push_cast
      omega
    exact_mod_cast this
  have h1 : colorOffset mX mY stride k = mY * toMIL_UINT stride + 3 * mX + k := by
    unfold colorOffset MIL_UINT_RANGE
    omega
  rw [h1]
  push_cast
  rcases Nat.eq_zero_or_pos mY with h0 | hpos
  · subst h0
    simp
  · have hsl : stride < 2 ^ 64 := by
      have : (1 : Int) * stride ≤ (mY : Int) * stride :=
        mul_le_mul_of_nonneg_right (by exact_mod_cast hpos) hs
      omega
    rw [toMIL_UINT_of_nonneg stride hs hsl]

theorem offset_lt_size (W H stride : Int) (mX mY k : Nat)
    (hs : 3 * W ≤ stride) (hx : (mX : Int) < W) (hy : (mY : Int) < H) (hk : k ≤ 2) :
    (mY : Int) * stride + 3 * (mX : Int) + (k : Int) < stride * H := by
  have hs0 : 0 ≤ stride := by omega
  have h1 : ((mY : Int) + 1) * stride ≤ H * stride :=
    mul_le_mul_of_nonneg_right (by omega) hs0
  have h2 : ((mY : Int) + 1) * stride = (mY : Int) * stride + stride := by ring
  have h3 : H * stride = stride * H := by ring
  omega

/-! ## Facts about the nested loop -/

theorem runVisits_append {σ : Type} (body : Nat → Nat → Nat → σ → Option σ)
    (l1 l2 : List Visit) (s : σ) :
    runVisits body (l1 ++ l2) s = (runVisits body l1 s).bind (runVisits body l2) := by
  induction l1 generalizing s with
  | nil => simp [runVisits]
  | cons v vs ih =>
    simp only [List.cons_append, runVisits]
    cases body v.y v.x v.p s with
    | none => simp
    | some s1 => simp [ih]

theorem visitAt_eq (W y x p : Nat) (hx : x < W) (hp : p = y * W + x) :
    visitAt W p = { y := y, x := x, p := p } := by
  subst hp
  unfold visitAt
  have h1 : (y * W + x) / W = y := by
    rw [Nat.add_comm, Nat.add_mul_div_right _ _ (by omega), Nat.div_eq_of_lt hx, Nat.zero_add]
  have h2 : (y * W + x) % W = x := by
    rw [Nat.add_comm, Nat.add_mul_mod_self_right, Nat.mod_eq_of_lt hx]
  rw [h1, h2]

theorem colLoop_eq {σ : Type} (body : Nat → Nat → Nat → σ → Option σ) (W y : Nat) :
    ∀ (n x p : Nat) (s : σ), x + n ≤ W → p = y * W + x →
      colLoop body y n x p s
        = (runVisits body ((List.range' p n).map (visitAt W)) s).map (fun s1 => (p + n, s1)) := by
  intro n
  induction n with
  | zero =>
    intro x p s _ _
    simp [colLoop, runVisits]
  | succ n ih =>
    intro x p s hx hp
    have hv := visitAt_eq W y x p (by omega) hp
    simp only [colLoop, List.range'_succ, List.map_cons, runVisits, hv]
    cases body y x p s with
    | none => simp
    | some s1 =>
      simp only
      rw [ih (x + 1) (p + 1) s1 (by omega) (by omega)]
      have : p + 1 + n = p + (n + 1) := by omega
      rw [this]

theorem rowLoop_eq {σ : Type} (body : Nat → Nat → Nat → σ → Option σ) (W : Nat) :
    ∀ (m y p : Nat) (s : σ), p = y * W →
      rowLoop body W m y p s
        = (runVisits body ((List.range' p (m * W)).map (visitAt W)) s).map
            (fun s1 => (p + m * W, s1)) := by
  intro m
  induction m with
  | zero =>
    intro y p s _
    simp [rowLoop, runVisits]
  | succ m ih =>
    intro y p s hp
    have hsplit : List.range' p ((m + 1) * W)
        = List.range' p W ++ List.range' (p + W) (m * W) := by
      rw [List.range'_append_1, Nat.succ_mul]
    simp only [rowLoop]
    rw [colLoop_eq body W y W 0 p s (by omega) (by omega), hsplit, List.map_append,
      runVisits_append]
    cases runVisits body ((List.range' p W).map (visitAt W)) s with
    | none => simp
    | some s1 =>
      simp only [Option.map_some', Option.some_bind]
      rw [ih (y + 1) (p + W) s1 (by rw [hp, Nat.succ_mul])]
      have : p + W + m * W = p + (m + 1) * W := by rw [Nat.succ_mul]; omega
      rw [this]

/-- The nested loop runs its body at the visits of `linearVisits`, in that
order, and leaves the counter at `W * H`. -/
theorem pixelLoop_eq {σ : Type} (body : Nat → Nat → Nat → σ → Option σ) (W H : Int) (s : σ) :
    pixelLoop body W H s
      = (runVisits body (linearVisits W.toNat H.toNat) s).map
          (fun s1 => (W.toNat * H.toNat, s1)) := by
  unfold pixelLoop linearVisits
  rw [rowLoop_eq body W.toNat H.toNat 0 0 s (by simp), List.range_eq_range',
    Nat.mul_comm W.toNat H.toNat]
  simp

theorem runVisits_recordVisit (l tr : List Visit) :
    runVisits recordVisit l tr = some (tr ++ l) := by
  induction l generalizing tr with
  | nil => simp [runVisits]
  | cons v vs ih =>
    simp only [runVisits, recordVisit]
    rw [ih]
    simp

/-! ## Facts about the loop body -/

theorem pixelBody_eq (env : LoopEnv) (fr : FrameData) (y x p : Nat) (b : Buffers) :
    pixelBody env fr y x p b =
      if fr.color then
        if inUnitSquare (fr.tex_coords p) then
          (writePoint env fr p b).bind (writeReflectance env fr p)
        else some b
      else writePoint env fr p b := by
  simp [pixelBody, EXTRACT_CONFIDENCE]

theorem writePoint_spec (env : LoopEnv) (fr : FrameData) (p : Nat) (b b1 : Buffers)
    (h : writePoint env fr p b = some b1) :
    b1.PointCloud = Function.update b.PointCloud p (fr.vertices p) ∧
      b1.Reflectance = b.Reflectance := by
  unfold writePoint at h
  split at h
  · simp at h
  · simp only [Option.some.injEq] at h
    subst h
    simp

theorem writeReflectance_spec (env : LoopEnv) (fr : FrameData) (p : Nat) (b b1 : Buffers)
    (h : writeReflectance env fr p b = some b1) :
    b1.PointCloud = b.PointCloud ∧
    (∀ q, q ≠ p → b1.Reflectance q = b.Reflectance q) ∧
    ∃ mX mY : Nat,
      mappedX (fr.tex_coords p) env.TextureWidth = some mX ∧
      mappedY (fr.tex_coords p) env.TextureHeight = some mY ∧
      readColorData fr.ColorData (colorOffset mX mY fr.stride 0) = some (b1.Reflectance p).x ∧
      readColorData fr.ColorData (colorOffset mX mY fr.stride 1) = some (b1.Reflectance p).y ∧
      readColorData fr.ColorData (colorOffset mX mY fr.stride 2) = some (b1.Reflectance p).z ∧
      (b1.Reflectance p).a = (b.Reflectance p).a := by
  unfold writeReflectance at h
  split at h
  · rename_i mX mY hX hY
    split at h
    · rename_i c0 c1 c2 h0 h1 h2
      split at h
      · simp at h
      · simp only [Option.some.injEq] at h
        subst h
        refine ⟨rfl, ?_, mX, mY, hX, hY, ?_, ?_, ?_, ?_⟩
        · intro q hq
          simp [Function.update_noteq hq]
        · simpa using h0
        · simpa using h1
        · simpa using h2
        · simp
    · simp at h
  · simp at h

/-- What one execution of the loop body does to the two buffers. -/
theorem pixelBody_spec (env : LoopEnv) (fr : FrameData) (y x p : Nat) (b b1 : Buffers)
    (h : pixelBody env fr y x p b = some b1) :
    (∀ q, q ≠ p → b1.PointCloud q = b.PointCloud q ∧ b1.Reflectance q = b.Reflectance q) ∧
    (fr.color = false ∨ inUnitSquare (fr.tex_coords p) → b1.PointCloud p = fr.vertices p) ∧
    (¬ (fr.color = false ∨ inUnitSquare (fr.tex_coords p)) → b1.PointCloud p = b.PointCloud p) ∧
    ReflectanceAfter env fr p (b.Reflectance p) (b1.Reflectance p) := by
  rw [pixelBody_eq] at h
  by_cases hc : fr.color = true
  · rw [if_pos hc] at h
    by_cases hu : inUnitSquare (fr.tex_coords p)
    · rw [if_pos hu] at h
      cases hw : writePoint env fr p b with
      | none => rw [hw] at h; simp at h
      | some b2 =>
        rw [hw] at h
        simp only [Option.some_bind] at h
        obtain ⟨hp2, hr2⟩ := writePoint_spec env fr p b b2 hw
        obtain ⟨hp1, hr1, mX, mY, hX, hY, h0, h1, h2, ha⟩ :=
          writeReflectance_spec env fr p b2 b1 h
        refine ⟨?_, ?_, ?_, ?_, ?_⟩
        · intro q hq
          rw [hp1, hp2, hr1 q hq, hr2]
          simp [Function.update_noteq hq]
        · intro _
          rw [hp1, hp2]
          simp
        · intro hn
          exact absurd (Or.inr hu) hn
        · intro _
          exact ⟨mX, mY, hX, hY, h0, h1, h2, by rw [ha, hr2]⟩
        · intro hn
          exact absurd ⟨hc, hu⟩ hn
    · rw [if_neg hu] at h
      simp only [Option.some.injEq] at h
      subst h
      refine ⟨fun q _ => ⟨rfl, rfl⟩, ?_, fun _ => rfl, ?_, fun _ => rfl⟩
      · intro hor
        rcases hor with h1 | h1
        · rw [hc] at h1
          simp at h1
        · exact absurd h1 hu
      · intro hcb
        exact absurd hcb.2 hu
  · have hcf : fr.color = false := by simpa using hc
    rw [if_neg hc] at h
    obtain ⟨hp2, hr2⟩ := writePoint_spec env fr p b b1 h
    refine ⟨?_, ?_, ?_, ?_, ?_⟩
    · intro q hq
      rw [hp2, hr2]
      simp [Function.update_noteq hq]
    · intro _
      rw [hp2]
      simp
    · intro hn
      exact absurd (Or.inl hcf) hn
    · intro hcb
      exact absurd hcb.1 hc
    · intro _
      rw [hr2]

theorem readColorData_in_bounds (W H stride : Int) (mX mY k : Nat) (ColorData : List Nat)
    (hs : 3 * W ≤ stride) (hx : (mX : Int) < W) (hy : (mY : Int) < H) (hk : k ≤ 2)
    (hlen : (ColorData.length : Int) = stride * H) :
    ∃ c, readColorData ColorData (colorOffset mX mY stride k) = some c := by
  have hlt := offset_lt_size W H stride mX mY k hs hx hy hk
  have hle := colorOffset_le mX mY stride k (by omega)
  have hin : colorOffset mX mY stride k < ColorData.length := by
    have : (colorOffset mX mY stride k : Int) < (ColorData.length : Int) := by omega
    exact_mod_cast this
  refine ⟨ColorData[colorOffset mX mY stride k], ?_⟩
  unfold readColorData
  exact List.getElem?_eq_getElem hin

theorem pixelBody_total (env : LoopEnv) (fr : FrameData) (hsafe : PassSafe env fr)
    (y x p : Nat) (b : Buffers) : ∃ b1, pixelBody env fr y x p b = some b1 := by
  obtain ⟨hpc, hcol⟩ := hsafe
  have hwp : ∀ b0 : Buffers, ∃ b2, writePoint env fr p b0 = some b2 := by
    intro b0
    simp [writePoint, hpc]
  rw [pixelBody_eq]
  by_cases hc : fr.color = true
  · rw [if_pos hc]
    by_cases hu : inUnitSquare (fr.tex_coords p)
    · rw [if_pos hu]
      obtain ⟨hr, hW, hWr, hH, hHr, hs, hlen⟩ := hcol hc
      obtain ⟨b2, hb2⟩ := hwp b
      obtain ⟨mX, hX, _, _, hXW⟩ :=
        mappedIndex_bound (fr.tex_coords p).u env.TextureWidth hW hWr hu.1 hu.2.1
      obtain ⟨mY, hY, _, _, hYH⟩ :=
        mappedIndex_bound (fr.tex_coords p).v env.TextureHeight hH hHr hu.2.2.1 hu.2.2.2
      obtain ⟨c0, h0⟩ := readColorData_in_bounds env.TextureWidth env.TextureHeight fr.stride
        mX mY 0 fr.ColorData hs hXW hYH (by omega) hlen
      obtain ⟨c1, h1⟩ := readColorData_in_bounds env.TextureWidth env.TextureHeight fr.stride
        mX mY 1 fr.ColorData hs hXW hYH (by omega) hlen
      obtain ⟨c2, h2⟩ := readColorData_in_bounds env.TextureWidth env.TextureHeight fr.stride
        mX mY 2 fr.ColorData hs hXW hYH (by omega) hlen
      rw [hb2]
      simp only [Option.some_bind]
      have hX1 : mappedX (fr.tex_coords p) env.TextureWidth = some mX := hX
      have hY1 : mappedY (fr.tex_coords p) env.TextureHeight = some mY := hY
      simp [writeReflectance, hX1, hY1, h0, h1, h2, hr]
    · rw [if_neg hu]
      exact ⟨b, rfl⟩
  · rw [if_neg hc]
    exact hwp b

theorem runVisits_total {σ : Type} (body : Nat → Nat → Nat → σ → Option σ)
    (hbody : ∀ y x p s, ∃ s1, body y x p s = some s1) (l : List Visit) :
    ∀ s, ∃ s1, runVisits body l s = some s1 := by
  induction l with
  | nil =>
    intro s
    exact ⟨s, rfl⟩
  | cons v vs ih =>
    intro s
    obtain ⟨s1, hs1⟩ := hbody v.y v.x v.p s
    obtain ⟨s2, hs2⟩ := ih s1
    exact ⟨s2, by simp [runVisits, hs1, hs2]⟩

/-- Under `PassSafe` one pass of the loop completes. -/
theorem framePass_total (env : LoopEnv) (fr : FrameData) (b : Buffers)
    (hsafe : PassSafe env fr) : ∃ r, framePass env fr b = some r := by
  unfold framePass
  rw [pixelLoop_eq]
  obtain ⟨b1, hb1⟩ := runVisits_total (pixelBody env fr) (pixelBody_total env fr hsafe)
    (linearVisits env.PointCloudsWidth.toNat env.PointCloudsHeight.toNat) b
  exact ⟨_, by rw [hb1]; rfl⟩

/-- The state after the body has run at the first `k` values of the counter:
below `k` the update rules hold, from `k` on nothing has changed. -/
theorem visited_invariant (env : LoopEnv) (fr : FrameData) (b : Buffers) (W : Nat) :
    ∀ (k : Nat) (bk : Buffers),
      runVisits (pixelBody env fr) ((List.range k).map (visitAt W)) b = some bk →
      ∀ q : Nat,
        (q < k →
          (fr.color = false ∨ inUnitSquare (fr.tex_coords q) →
            bk.PointCloud q = fr.vertices q) ∧
          (¬ (fr.color = false ∨ inUnitSquare (fr.tex_coords q)) →
            bk.PointCloud q = b.PointCloud q) ∧
          ReflectanceAfter env fr q (b.Reflectance q) (bk.Reflectance q)) ∧
        (k ≤ q → bk.PointCloud q = b.PointCloud q ∧ bk.Reflectance q = b.Reflectance q) := by
  intro k
  induction k with
  | zero =>
    intro bk h q
    simp only [List.range_zero, List.map_nil, runVisits, Option.some.injEq] at h
    subst h
    exact ⟨fun hq => absurd hq (Nat.not_lt_zero q), fun _ => ⟨rfl, rfl⟩⟩
  | succ k ih =>
    intro bk h q
    rw [List.range_succ, List.map_append, runVisits_append] at h
    cases hm : runVisits (pixelBody env fr) ((List.range k).map (visitAt W)) b with
    | none => rw [hm] at h; simp at h
    | some bm =>
      rw [hm] at h
      simp only [Option.some_bind, List.map_cons, List.map_nil, runVisits] at h
      cases hb : pixelBody env fr (visitAt W k).y (visitAt W k).x (visitAt W k).p bm with
      | none => rw [hb] at h; simp at h
      | some b2 =>
        rw [hb] at h
        simp only [Option.some.injEq] at h
        subst h
        have hbody := pixelBody_spec env fr _ _ _ bm b2 hb
        have hvp : (visitAt W k).p = k := rfl
        rw [hvp] at hbody
        obtain ⟨hother, hpt1, hpt2, hrefl⟩ := hbody
        have ihk := (ih bm hm k).2 (Nat.le_refl k)
        have ihq := ih bm hm q
        constructor
        · intro hq
          by_cases hqk : q = k
          · subst hqk
            refine ⟨hpt1, ?_, ?_⟩
            · intro hn
              rw [hpt2 hn, ihk.1]
            · rw [← ihk.2]
              exact hrefl
          · have hlt : q < k := by omega
            obtain ⟨h1, h2, h3⟩ := ihq.1 hlt
            obtain ⟨e1, e2⟩ := hother q hqk
            rw [e1, e2]
            exact ⟨h1, h2, h3⟩
        · intro hq
          have hqk : q ≠ k := by omega
          obtain ⟨e1, e2⟩ := hother q hqk
          obtain ⟨h1, h2⟩ := ihq.2 (by omega)
          rw [e1, e2]
          exact ⟨h1, h2⟩

/-- The buffers one completed pass leaves. -/
theorem framePass_spec (env : LoopEnv) (fr : FrameData) (b : Buffers) (r : Nat × Buffers)
    (h : framePass env fr b = some r) :
    r.1 = env.PointCloudsWidth.toNat * env.PointCloudsHeight.toNat ∧
    runVisits (pixelBody env fr)
      ((List.range (env.PointCloudsWidth.toNat * env.PointCloudsHeight.toNat)).map
        (visitAt env.PointCloudsWidth.toNat)) b = some r.2 := by
  unfold framePass at h
  rw [pixelLoop_eq] at h
  unfold linearVisits at h
  cases hm : runVisits (pixelBody env fr)
      ((List.range (env.PointCloudsWidth.toNat * env.PointCloudsHeight.toNat)).map
        (visitAt env.PointCloudsWidth.toNat)) b with
  | none => rw [hm] at h; simp at h
  | some bm =>
    rw [hm] at h
    simp only [Option.map_some', Option.some.injEq] at h
    subst h
    exact ⟨rfl, rfl⟩

/-! ## Facts about initialisation -/

/-- In the colour-mapping branch a zero texture width makes the body
undefined: the modulo of line 295 has a zero divisor. -/
theorem pixelBody_undefined (env : LoopEnv) (fr : FrameData) (y x p : Nat) (b : Buffers)
    (hc : colourBranch fr p) (hT : env.TextureWidth = 0) :
    pixelBody env fr y x p b = none := by
  have hX : mappedX (fr.tex_coords p) env.TextureWidth = none := by
    rw [hT]
    simp [mappedX, mappedIndex, toMIL_UINT]
  rw [pixelBody_eq, if_pos hc.1, if_pos hc.2]
  cases writePoint env fr p b with
  | none => rfl
  | some b2 =>
    simp only [Option.some_bind]
    unfold writeReflectance
    rw [hX]

/-- Without a first colour frame in format `RS2_FORMAT_RGB8` initialisation
leaves the texture size at 0 and the reflectance pointer null. -/
theorem initialise_no_texture (K : MilConstants) (st : MilState)
    (MilSystem PointCloudContainer : Nat) (depthWidth depthHeight : Int)
    (color : Option ColorFrame)
    (h : ∀ c, color = some c → c.format ≠ rs2_format.RS2_FORMAT_RGB8) :
    (initialise K st MilSystem PointCloudContainer depthWidth depthHeight color).env.TextureWidth
      = 0 ∧
    (initialise K st MilSystem PointCloudContainer depthWidth depthHeight color).env.TextureHeight
      = 0 ∧
    (initialise K st MilSystem PointCloudContainer depthWidth depthHeight color).env.pReflectance
      = 0 := by
  cases color with
  | none => simp [initialise, EXTRACT_CONFIDENCE]
  | some c =>
    have hc := h c rfl
    simp [initialise, EXTRACT_CONFIDENCE, hc]

/-- With a first colour frame in format `RS2_FORMAT_RGB8` initialisation takes
the texture size from the frame and the reflectance pointer from the host
address of the reflectance component. -/
theorem initialise_RGB8 (K : MilConstants) (st : MilState)
    (MilSystem PointCloudContainer : Nat) (depthWidth depthHeight : Int) (c : ColorFrame)
    (h : c.format = rs2_format.RS2_FORMAT_RGB8) :
    (initialise K st MilSystem PointCloudContainer depthWidth depthHeight (some c)).env.TextureWidth
      = c.width ∧
    (initialise K st MilSystem PointCloudContainer depthWidth depthHeight (some c)).env.TextureHeight
      = c.height ∧
    (initialise K st MilSystem PointCloudContainer depthWidth depthHeight
        (some c)).ReflectanceComponent ≠ M_NULL ∧
    (initialise K st MilSystem PointCloudContainer depthWidth depthHeight (some c)).env.pReflectance
      = (initialise K st MilSystem PointCloudContainer depthWidth depthHeight
          (some c)).mil.hostAddress
          (initialise K st MilSystem PointCloudContainer depthWidth depthHeight
            (some c)).ReflectanceComponent := by
  have hne : ∀ (s : MilState) (f a b d e g : Int) (pd : Nat) (pp : Int),
      (GetMILContainerComponent s MilSystem PointCloudContainer f a b d e g pd pp).MilComponent
        ≠ M_NULL := by
    intro s f a b d e g pd pp
    unfold GetMILContainerComponent MbufInquireContainer MbufAllocComponent M_NULL
    by_cases h0 : s.component PointCloudContainer f = 0
    · simp [h0]
    · simp [h0]
  have hdata : ∀ (s : MilState) (f a b d e g : Int) (pd : Nat) (pp : Int),
      (GetMILContainerComponent s MilSystem PointCloudContainer f a b d e g pd pp).data
        = (GetMILContainerComponent s MilSystem PointCloudContainer f a b d e g pd pp).mil.hostAddress
            (GetMILContainerComponent s MilSystem PointCloudContainer f a b d e g pd
              pp).MilComponent := by
    intro s f a b d e g pd pp
    have := hne s f a b d e g pd pp
    unfold GetMILContainerComponent MbufInquireHostAddress at *
    simp only at this ⊢
    rw [if_neg this]
  refine ⟨?_, ?_, ?_, ?_⟩
  · simp [initialise, h]
  · simp [initialise, h]
  · simp only [initialise, h, if_true, EXTRACT_CONFIDENCE]
    exact hne _ _ _ _ _ _ _ _ _
  · simp only [initialise, h, if_true, EXTRACT_CONFIDENCE]
    exact hdata _ _ _ _ _ _ _ _ _

/-! ## The colour-channel conversion (C1) -/

/-- C1: `ConvertRGBBGR` swaps the first and the third channel and leaves the
others unchanged.  For a destination record at `d` and a source record at a
different location `s`, after `d.ConvertRGBBGR(s)` the destination has
`x = s.z`, `z = s.x`, `y = s.y` and the `a` it had before; the source record,
and every record other than the destination, is as it was. -/
theorem ConvertRGBBGR_swaps_first_and_third (mem : Nat → SColor) (d s : Nat) (hsep : d ≠ s) :
    (ConvertRGBBGR mem d s d).x = (mem s).z ∧
    (ConvertRGBBGR mem d s d).z = (mem s).x ∧
    (ConvertRGBBGR mem d s d).y = (mem s).y ∧
    (ConvertRGBBGR mem d s d).a = (mem d).a ∧
    ConvertRGBBGR mem d s s = mem s ∧
    ∀ l, l ≠ d → ConvertRGBBGR mem d s l = mem l := by
  have hsd : s ≠ d := fun h => hsep h.symm
  refine ⟨?_, ?_, ?_, ?_, ?_, ?_⟩
  · simp [ConvertRGBBGR, Function.update_noteq hsd]
  · simp [ConvertRGBBGR, Function.update_noteq hsd]
  · simp [ConvertRGBBGR, Function.update_noteq hsd]
  · simp [ConvertRGBBGR]
  · simp [ConvertRGBBGR, Function.update_noteq hsd]
  · intro l hl
    simp [ConvertRGBBGR, Function.update_noteq hl]

/-- The store used to exercise `ConvertRGBBGR`: record 0 is `(1, 2, 3, 4)`,
every other record is `(5, 6, 7, 8)`. -/
theorem ConvertRGBBGR_swaps_first_and_third_witness :
    (0 : Nat) ≠ 1 ∧
    (ConvertRGBBGR (fun n => if n = 0 then ⟨1, 2, 3, 4⟩ else ⟨5, 6, 7, 8⟩) 0 1 0)
      = ⟨7, 6, 5, 4⟩ := by
  have h := ConvertRGBBGR_swaps_first_and_third
    (fun n => if n = 0 then ⟨1, 2, 3, 4⟩ else ⟨5, 6, 7, 8⟩) 0 1 (by decide)
  refine ⟨by decide, ?_⟩
  obtain ⟨hx, hz, hy, ha, _, _⟩ := h
  cases hr : ConvertRGBBGR (fun n => if n = 0 then (⟨1, 2, 3, 4⟩ : SColor) else ⟨5, 6, 7, 8⟩) 0 1 0
  rw [hr] at hx hz hy ha
  simp at hx hz hy ha
  simp [hx, hz, hy, ha]

/-! ## The texture-coordinate-to-pixel mapping (C2, C7) and the colour reads (C8) -/

/-- C8: colour-buffer reads stay in bounds.  For every texture width `W > 0`,
height `H > 0`, stride with `stride ≥ 3*W`, and every `mappedX < W` and
`mappedY < H`, each of the three byte offsets `mappedY*stride + 3*mappedX + k`,
`k` in 0, 1, 2, is strictly less than `stride*H`; the offset the loop computes
is not larger, so on colour data of `stride*H` bytes the read is in range. -/
theorem color_reads_in_bounds (W H stride : Int) (mX mY k : Nat) (ColorData : List Nat)
    (hW : 0 < W) (hH : 0 < H) (hs : 3 * W ≤ stride)
    (hx : (mX : Int) < W) (hy : (mY : Int) < H) (hk : k ≤ 2)
    (hlen : (ColorData.length : Int) = stride * H) :
    (mY : Int) * stride + 3 * (mX : Int) + (k : Int) < stride * H ∧
    (colorOffset mX mY stride k : Int) < stride * H ∧
    ∃ c, readColorData ColorData (colorOffset mX mY stride k) = some c := by
  have hlt := offset_lt_size W H stride mX mY k hs hx hy hk
  have hle := colorOffset_le mX mY stride k (by omega)
  exact ⟨hlt, by omega, readColorData_in_bounds W H stride mX mY k ColorData hs hx hy hk hlen⟩

/-- A 2 by 2 texture with stride 7 (one byte of padding per row) over 14 bytes:
the last byte of the last pixel is at offset 12. -/
theorem color_reads_in_bounds_witness :
    (1 : Int) * 7 + 3 * 1 + 2 < 7 * 2 ∧
    (colorOffset 1 1 7 2 : Int) < 7 * 2 ∧
    ∃ c, readColorData [0, 1, 2, 3, 4, 5, 6, 7, 8, 9, 10, 11, 12, 13] (colorOffset 1 1 7 2)
      = some c :=
  color_reads_in_bounds 2 2 7 1 1 2 [0, 1, 2, 3, 4, 5, 6, 7, 8, 9, 10, 11, 12, 13]
    (by decide) (by decide) (by decide) (by decide) (by decide) (by decide) (by decide)

/-! ## The linear index of the nested loop (C10) -/

/-- C10: the linear-index invariant of the nested pixel loop.  For every
`PointCloudsWidth ≥ 0` and `PointCloudsHeight ≥ 0`: whatever the body does,
the loop runs it exactly at the visits of `linearVisits` (every value of `p`
in `0 .. W*H` once, in increasing order) and exits with `p = W*H`; at the
start of the body for row `y` and column `x` the counter is `p = y*W + x`, with
`x < W`, `y < H` and `0 ≤ p < W*H`. -/
theorem linear_index_invariant (W H : Int) (hW : 0 ≤ W) (hH : 0 ≤ H) :
    (∀ (σ : Type) (body : Nat → Nat → Nat → σ → Option σ) (s : σ),
      pixelLoop body W H s
        = (runVisits body (linearVisits W.toNat H.toNat) s).map
            (fun s1 => ((W * H).toNat, s1))) ∧
    pixelLoop recordVisit W H [] = some ((W * H).toNat, linearVisits W.toNat H.toNat) ∧
    (∀ v ∈ linearVisits W.toNat H.toNat,
      (v.p : Int) = (v.y : Int) * W + (v.x : Int) ∧ (v.x : Int) < W ∧ (v.y : Int) < H ∧
        0 ≤ (v.p : Int) ∧ (v.p : Int) < W * H) ∧
    (linearVisits W.toNat H.toNat).map Visit.p = List.range (W * H).toNat := by
  lift W to ℕ using hW
  lift H to ℕ using hH
  have hmul : ((W : Int) * (H : Int)).toNat = W * H := by
    rw [← Int.natCast_mul, Int.toNat_natCast]
  simp only [Int.toNat_natCast, hmul]
  refine ⟨?_, ?_, ?_, ?_⟩
  · intro σ body s
    rw [pixelLoop_eq]
    simp
  · rw [pixelLoop_eq, runVisits_recordVisit]
    simp
  · intro v hv
    unfold linearVisits at hv
    rw [List.mem_map] at hv
    obtain ⟨p, hp, rfl⟩ := hv
    rw [List.mem_range] at hp
    have hWpos : 0 < W := by
      rcases Nat.eq_zero_or_pos W with h | h
      · subst h
        simp at hp
      · exact h
    have h1 : p / W * W + p % W = p := Nat.div_add_mod' p W
    have h2 : p % W < W := Nat.mod_lt p hWpos
    have h3 : p / W < H := Nat.div_lt_of_lt_mul hp
    simp only [visitAt]
    refine ⟨?_, ?_, ?_, ?_, ?_⟩
    · exact_mod_cast h1.symm
    · exact_mod_cast h2
    · exact_mod_cast h3
    · exact Int.ofNat_nonneg _
    · exact_mod_cast hp
  · unfold linearVisits
    rw [List.map_map]
    have : (Visit.p ∘ visitAt W) = id := by
      funext p
      rfl
    rw [this, List.map_id]

/-- A point cloud 3 pixels wide and 2 pixels high: six visits, the counter
running from 0 to 5, and 6 at exit. -/
theorem linear_index_invariant_witness :
    pixelLoop recordVisit 3 2 []
      = some (6, [⟨0, 0, 0⟩, ⟨0, 1, 1⟩, ⟨0, 2, 2⟩, ⟨1, 0, 3⟩, ⟨1, 1, 4⟩, ⟨1, 2, 5⟩]) :=
  (linear_index_invariant 3 2 (by decide) (by decide)).2.1.trans (by decide)

/-! ## The update rules of one pass (C5, C6) -/

/-- C5: the point-cloud update rule of one pass of the per-pixel loop, for a
point cloud of non-negative width and height.  A pass that is free of
undefined behaviour completes, and after a completed pass, for every pixel
index `p` in `0 .. PointCloudsWidth*PointCloudsHeight`, `pPointCloud[p]` equals
`vertices[p]` if there is no colour frame or the texture coordinate of `p` lies
in the unit square; otherwise it is the value it held before the pass. -/
theorem pointcloud_update_rule (env : LoopEnv) (fr : FrameData) (b : Buffers)
    (hW : 0 ≤ env.PointCloudsWidth) (hH : 0 ≤ env.PointCloudsHeight) :
    (PassSafe env fr → ∃ r, framePass env fr b = some r) ∧
    ∀ r, framePass env fr b = some r →
      ∀ p : Nat, (p : Int) < env.PointCloudsWidth * env.PointCloudsHeight →
        (fr.color = false ∨ inUnitSquare (fr.tex_coords p) →
          r.2.PointCloud p = fr.vertices p) ∧
        (fr.color = true ∧ ¬ inUnitSquare (fr.tex_coords p) →
          r.2.PointCloud p = b.PointCloud p) := by
  refine ⟨framePass_total env fr b, ?_⟩
  intro r hr p hp
  obtain ⟨_, hrun⟩ := framePass_spec env fr b r hr
  have hlt : p < env.PointCloudsWidth.toNat * env.PointCloudsHeight.toNat := by
    have h1 : ((env.PointCloudsWidth.toNat * env.PointCloudsHeight.toNat : Nat) : Int)
        = env.PointCloudsWidth * env.PointCloudsHeight := by
      push_cast
      rw [Int.toNat_of_nonneg hW, Int.toNat_of_nonneg hH]
    have h2 : (p : Int)
        < ((env.PointCloudsWidth.toNat * env.PointCloudsHeight.toNat : Nat) : Int) := by
      rw [h1]
      exact hp
    exact_mod_cast h2
  obtain ⟨h1, h2, _⟩ := (visited_invariant env fr b _ _ r.2 hrun p).1 hlt
  refine ⟨h1, ?_⟩
  intro hc
  apply h2
  intro hor
  rcases hor with h | h
  · rw [hc.1] at h
    simp at h
  · exact hc.2 h

/-- On the sample data the pass completes; pixel 0 receives its vertex and
pixel 1, whose texture coordinate is outside the unit square, keeps the entry
of the earlier cycle. -/
theorem pointcloud_update_rule_witness :
    ∃ r, framePass sampleEnv sampleFrame sampleBuffers = some r ∧
      r.2.PointCloud 0 = { x := 0, y := 1, z := 2 } ∧
      r.2.PointCloud 1 = { x := 7, y := 8, z := 9 } := by
  have h := pointcloud_update_rule sampleEnv sampleFrame sampleBuffers
    (by decide) (by decide)
  have hsafe : PassSafe sampleEnv sampleFrame := by
    norm_num [PassSafe, sampleEnv, sampleFrame, IsMilInt]
  obtain ⟨r, hr⟩ := h.1 hsafe
  refine ⟨r, hr, ?_, ?_⟩
  · have h0 := (h.2 r hr 0 (by decide)).1
      (Or.inr (by norm_num [inUnitSquare, sampleFrame]))
    rw [h0]
    norm_num [sampleFrame]
  · have h1 := (h.2 r hr 1 (by decide)).2
      ⟨rfl, by norm_num [inUnitSquare, sampleFrame]⟩
    rw [h1]
    rfl

/-- C6: the reflectance update rule of one pass of the per-pixel loop, for a
point cloud of non-negative width and height.  A pass that is free of
undefined behaviour completes, and after a completed pass: for every pixel
index `p` whose texture coordinate lies in the unit square while a colour
frame is present, channels `x`, `y`, `z` of `pReflectance[p]` are the three
colour bytes at the offsets the loop computes from `mappedX` and `mappedY`,
which are `base`, `base+1`, `base+2` with `base = mappedY*stride + 3*mappedX`
when that sum fits a `MIL_UINT`, and channel `a` is unchanged; for every other
index the whole record is unchanged. -/
theorem reflectance_update_rule (env : LoopEnv) (fr : FrameData) (b : Buffers)
    (hW : 0 ≤ env.PointCloudsWidth) (hH : 0 ≤ env.PointCloudsHeight) :
    (PassSafe env fr → ∃ r, framePass env fr b = some r) ∧
    ∀ r, framePass env fr b = some r →
      (∀ p : Nat, (p : Int) < env.PointCloudsWidth * env.PointCloudsHeight →
        colourBranch fr p →
        ∃ mX mY : Nat,
          mappedX (fr.tex_coords p) env.TextureWidth = some mX ∧
          mappedY (fr.tex_coords p) env.TextureHeight = some mY ∧
          readColorData fr.ColorData (colorOffset mX mY fr.stride 0)
            = some (r.2.Reflectance p).x ∧
          readColorData fr.ColorData (colorOffset mX mY fr.stride 1)
            = some (r.2.Reflectance p).y ∧
          readColorData fr.ColorData (colorOffset mX mY fr.stride 2)
            = some (r.2.Reflectance p).z ∧
          (r.2.Reflectance p).a = (b.Reflectance p).a ∧
          (0 ≤ fr.stride → (mY : Int) * fr.stride + 3 * (mX : Int) + 2 < 2 ^ 64 →
            ∀ k : Nat, k ≤ 2 →
              (colorOffset mX mY fr.stride k : Int)
                = (mY : Int) * fr.stride + 3 * (mX : Int) + (k : Int))) ∧
      (∀ p : Nat,
        ¬ ((p : Int) < env.PointCloudsWidth * env.PointCloudsHeight ∧ colourBranch fr p) →
        r.2.Reflectance p = b.Reflectance p) := by
  refine ⟨framePass_total env fr b, ?_⟩
  intro r hr
  obtain ⟨_, hrun⟩ := framePass_spec env fr b r hr
  have hcast : ((env.PointCloudsWidth.toNat * env.PointCloudsHeight.toNat : Nat) : Int)
      = env.PointCloudsWidth * env.PointCloudsHeight := by
    push_cast
    rw [Int.toNat_of_nonneg hW, Int.toNat_of_nonneg hH]
  have hinv := visited_invariant env fr b _ _ r.2 hrun
  constructor
  · intro p hp hcb
    have hlt : p < env.PointCloudsWidth.toNat * env.PointCloudsHeight.toNat := by
      have h2 : (p : Int)
          < ((env.PointCloudsWidth.toNat * env.PointCloudsHeight.toNat : Nat) : Int) := by
        rw [hcast]
        exact hp
      exact_mod_cast h2
    obtain ⟨_, _, hrefl⟩ := (hinv p).1 hlt
    obtain ⟨mX, mY, hX, hY, h0, h1, h2, ha⟩ := hrefl.1 hcb
    refine ⟨mX, mY, hX, hY, h0, h1, h2, ha, ?_⟩
    intro hs hfit k hk
    exact colorOffset_eq mX mY fr.stride k hs (by omega)
  · intro p hn
    by_cases hlt : p < env.PointCloudsWidth.toNat * env.PointCloudsHeight.toNat
    · have hp : (p : Int) < env.PointCloudsWidth * env.PointCloudsHeight := by
        rw [← hcast]
        exact_mod_cast hlt
      obtain ⟨_, _, hrefl⟩ := (hinv p).1 hlt
      exact hrefl.2 (fun hcb => hn ⟨hp, hcb⟩)
    · exact ((hinv p).2 (by omega)).2

/-- On the sample data the pass completes; pixel 0 maps to texture pixel
`(1, 1)`, whose bytes are at offsets 9, 10, 11, and keeps its fourth channel;
pixel 1 keeps its record. -/
theorem reflectance_update_rule_witness :
    ∃ r, framePass sampleEnv sampleFrame sampleBuffers = some r ∧
      r.2.Reflectance 0 = { x := 19, y := 20, z := 21, a := 255 } ∧
      r.2.Reflectance 1 = { x := 1, y := 2, z := 3, a := 255 } := by
  have h := reflectance_update_rule sampleEnv sampleFrame sampleBuffers
    (by decide) (by decide)
  have hsafe : PassSafe sampleEnv sampleFrame := by
    norm_num [PassSafe, sampleEnv, sampleFrame, IsMilInt]
  obtain ⟨r, hr⟩ := h.1 hsafe
  refine ⟨r, hr, ?_, ?_⟩
  · obtain ⟨mX, mY, hX, hY, h0, h1, h2, ha, _⟩ := (h.2 r hr).1 0 (by decide)
      ⟨rfl, by norm_num [inUnitSquare, sampleFrame]⟩
    have hhalf : mappedIndex (1 / 2) 2 = some 1 := by
      have e := mappedIndex_eq (1 / 2) 2 (by norm_num) (by norm_num [IsMilInt])
        (by norm_num) (by norm_num)
      have h2 : intToFloat 2 = 2 := by
        have := roundFloat_intCast 2 (by norm_num) (by norm_num)
        simpa [intToFloat] using this
      have hp : floatMul (1 / 2) 2 = 1 := by
        have := roundFloat_intCast 1 (by norm_num) (by norm_num)
        unfold floatMul
        norm_num at this ⊢
        exact this
      rw [h2, hp] at e
      norm_num at e
      exact e
    have hX1 : mappedX (sampleFrame.tex_coords 0) sampleEnv.TextureWidth = some 1 := by
      simpa [mappedX, sampleFrame, sampleEnv] using hhalf
    have hY1 : mappedY (sampleFrame.tex_coords 0) sampleEnv.TextureHeight = some 1 := by
      simpa [mappedY, sampleFrame, sampleEnv] using hhalf
    rw [hX1] at hX
    rw [hY1] at hY
    simp only [Option.some.injEq] at hX hY
    subst hX
    subst hY
    have e0 : readColorData sampleFrame.ColorData (colorOffset 1 1 sampleFrame.stride 0)
        = some 19 := by decide
    have e1 : readColorData sampleFrame.ColorData (colorOffset 1 1 sampleFrame.stride 1)
        = some 20 := by decide
    have e2 : readColorData sampleFrame.ColorData (colorOffset 1 1 sampleFrame.stride 2)
        = some 21 := by decide
    rw [e0] at h0
    rw [e1] at h1
    rw [e2] at h2
    simp only [Option.some.injEq] at h0 h1 h2
    cases hrec : r.2.Reflectance 0
    rw [hrec] at h0 h1 h2 ha
    simp only at h0 h1 h2 ha
    rw [← h0, ← h1, ← h2, ha]
    rfl
  · have h1 := (h.2 r hr).2 1 (by
      intro hc
      have := hc.2.2
      norm_num [inUnitSquare, sampleFrame] at this)
    rw [h1]
    rfl

/-! ## Retrieving or allocating a component (C4) -/

/-- C4: `GetMILContainerComponent` retrieves a component from a container and
allocates it only if it is not present.  If the container already holds a
non-null component under the flag, the function returns that identifier and
the library state is unchanged (no allocation).  Otherwise it performs exactly
one allocation, with the given bands, size, type and attribute under that
flag, and returns the newly allocated, non-null identifier, which the
container then holds under the flag.  In both cases a second call with the
same flag returns the same identifier and allocates nothing. -/
theorem GetMILContainerComponent_allocates_only_if_absent (st : MilState)
    (MilSystem MilContainer : Nat)
    (ComponentIdFlag NbBands SizeX SizeY DataType Attribute : Int)
    (pData : Nat) (pPitch : Int) :
    (st.component MilContainer ComponentIdFlag ≠ M_NULL →
      (GetMILContainerComponent st MilSystem MilContainer ComponentIdFlag NbBands SizeX SizeY
          DataType Attribute pData pPitch).MilComponent
        = st.component MilContainer ComponentIdFlag ∧
      (GetMILContainerComponent st MilSystem MilContainer ComponentIdFlag NbBands SizeX SizeY
          DataType Attribute pData pPitch).mil = st) ∧
    (st.component MilContainer ComponentIdFlag = M_NULL →
      (GetMILContainerComponent st MilSystem MilContainer ComponentIdFlag NbBands SizeX SizeY
          DataType Attribute pData pPitch).mil.allocated
        = { container := MilContainer, NbBands := NbBands, SizeX := SizeX, SizeY := SizeY,
            DataType := DataType, Attribute := Attribute, ComponentIdFlag := ComponentIdFlag,
            id := (GetMILContainerComponent st MilSystem MilContainer ComponentIdFlag NbBands
              SizeX SizeY DataType Attribute pData pPitch).MilComponent } :: st.allocated ∧
      (GetMILContainerComponent st MilSystem MilContainer ComponentIdFlag NbBands SizeX SizeY
          DataType Attribute pData pPitch).MilComponent ≠ M_NULL ∧
      (GetMILContainerComponent st MilSystem MilContainer ComponentIdFlag NbBands SizeX SizeY
          DataType Attribute pData pPitch).mil.component MilContainer ComponentIdFlag
        = (GetMILContainerComponent st MilSystem MilContainer ComponentIdFlag NbBands SizeX SizeY
            DataType Attribute pData pPitch).MilComponent) ∧
    (∀ (MilSystem2 : Nat) (NbBands2 SizeX2 SizeY2 DataType2 Attribute2 : Int)
        (pData2 : Nat) (pPitch2 : Int),
      (GetMILContainerComponent
          (GetMILContainerComponent st MilSystem MilContainer ComponentIdFlag NbBands SizeX SizeY
            DataType Attribute pData pPitch).mil
          MilSystem2 MilContainer ComponentIdFlag NbBands2 SizeX2 SizeY2 DataType2 Attribute2
          pData2 pPitch2).MilComponent
        = (GetMILContainerComponent st MilSystem MilContainer ComponentIdFlag NbBands SizeX SizeY
            DataType Attribute pData pPitch).MilComponent ∧
      (GetMILContainerComponent
          (GetMILContainerComponent st MilSystem MilContainer ComponentIdFlag NbBands SizeX SizeY
            DataType Attribute pData pPitch).mil
          MilSystem2 MilContainer ComponentIdFlag NbBands2 SizeX2 SizeY2 DataType2 Attribute2
          pData2 pPitch2).mil
        = (GetMILContainerComponent st MilSystem MilContainer ComponentIdFlag NbBands SizeX SizeY
            DataType Attribute pData pPitch).mil) := by
  unfold GetMILContainerComponent MbufInquireContainer MbufAllocComponent M_NULL
  by_cases h0 : st.component MilContainer ComponentIdFlag = 0
  · simp [h0]
  · simp [h0]

/-- On the sample library state: the first call under flag 5 allocates
component 1 with the given parameters; on the state it leaves, where the
component is present, a call returns component 1 and changes nothing. -/
theorem GetMILContainerComponent_allocates_only_if_absent_witness :
    (GetMILContainerComponent sampleMil 1 2 5 3 640 480 32 7 0 0).MilComponent = 1 ∧
    (GetMILContainerComponent sampleMil 1 2 5 3 640 480 32 7 0 0).mil.allocated
      = [{ container := 2, NbBands := 3, SizeX := 640, SizeY := 480, DataType := 32,
           Attribute := 7, ComponentIdFlag := 5, id := 1 }] ∧
    (GetMILContainerComponent
      (GetMILContainerComponent sampleMil 1 2 5 3 640 480 32 7 0 0).mil
      1 2 5 3 640 480 32 7 0 0).MilComponent = 1 ∧
    (GetMILContainerComponent
      (GetMILContainerComponent sampleMil 1 2 5 3 640 480 32 7 0 0).mil
      1 2 5 3 640 480 32 7 0 0).mil
      = (GetMILContainerComponent sampleMil 1 2 5 3 640 480 32 7 0 0).mil := by
  have h1 := (GetMILContainerComponent_allocates_only_if_absent sampleMil 1 2 5 3 640 480 32 7
    0 0).2.1 rfl
  have h2 := (GetMILContainerComponent_allocates_only_if_absent
    (GetMILContainerComponent sampleMil 1 2 5 3 640 480 32 7 0 0).mil 1 2 5 3 640 480 32 7
    0 0).1 (by decide)
  have hid : (GetMILContainerComponent sampleMil 1 2 5 3 640 480 32 7 0 0).MilComponent = 1 :=
    rfl
  refine ⟨hid, ?_, ?_, h2.2⟩
  · rw [h1.1, hid]
    rfl
  · rw [h2.1]
    rfl

/-! ## The guard of the texture mapping (C9) -/

/-- C9, evaluated where it fails.  Initialisation with a first colour frame
that is absent, or present in a format other than `RS2_FORMAT_RGB8`, leaves
`TextureWidth = 0`, `TextureHeight = 0` and `pReflectance = nullptr`.  A later
frame set with a colour frame and a texture coordinate in the unit square
(pixel 0 of the sample frame) then executes the colour-mapping branch: the
modulo of line 295 has a zero divisor and the pass is undefined. -/
theorem texture_mapping_unguarded (K : MilConstants) (st : MilState)
    (MilSystem PointCloudContainer : Nat) (b : Buffers) :
    colourBranch sampleFrame 0 ∧
    ((initialise K st MilSystem PointCloudContainer 2 1 none).env.TextureWidth = 0 ∧
      (initialise K st MilSystem PointCloudContainer 2 1 none).env.TextureHeight = 0 ∧
      (initialise K st MilSystem PointCloudContainer 2 1 none).env.pReflectance = 0 ∧
      mappedX (sampleFrame.tex_coords 0)
        (initialise K st MilSystem PointCloudContainer 2 1 none).env.TextureWidth = none ∧
      framePass (initialise K st MilSystem PointCloudContainer 2 1 none).env sampleFrame b
        = none) ∧
    ((initialise K st MilSystem PointCloudContainer 2 1
        (some sampleOtherFormat)).env.TextureWidth = 0 ∧
      (initialise K st MilSystem PointCloudContainer 2 1
        (some sampleOtherFormat)).env.TextureHeight = 0 ∧
      (initialise K st MilSystem PointCloudContainer 2 1
        (some sampleOtherFormat)).env.pReflectance = 0 ∧
      mappedX (sampleFrame.tex_coords 0)
        (initialise K st MilSystem PointCloudContainer 2 1
          (some sampleOtherFormat)).env.TextureWidth = none ∧
      framePass (initialise K st MilSystem PointCloudContainer 2 1
        (some sampleOtherFormat)).env sampleFrame b = none) := by
  have hcb : colourBranch sampleFrame 0 :=
    ⟨rfl, by norm_num [inUnitSquare, sampleFrame]⟩
  have key : ∀ color : Option ColorFrame,
      (∀ c, color = some c → c.format ≠ rs2_format.RS2_FORMAT_RGB8) →
      (initialise K st MilSystem PointCloudContainer 2 1 color).env.TextureWidth = 0 ∧
      (initialise K st MilSystem PointCloudContainer 2 1 color).env.TextureHeight = 0 ∧
      (initialise K st MilSystem PointCloudContainer 2 1 color).env.pReflectance = 0 ∧
      mappedX (sampleFrame.tex_coords 0)
        (initialise K st MilSystem PointCloudContainer 2 1 color).env.TextureWidth = none ∧
      framePass (initialise K st MilSystem PointCloudContainer 2 1 color).env sampleFrame b
        = none := by
    intro color hfmt
    obtain ⟨hw, hh, hp⟩ := initialise_no_texture K st MilSystem PointCloudContainer 2 1 color hfmt
    have hbody := pixelBody_undefined
      (initialise K st MilSystem PointCloudContainer 2 1 color).env sampleFrame 0 0 0 b hcb hw
    have hdimW : (initialise K st MilSystem PointCloudContainer 2 1 color).env.PointCloudsWidth
        = 2 := rfl
    have hdimH : (initialise K st MilSystem PointCloudContainer 2 1 color).env.PointCloudsHeight
        = 1 := rfl
    refine ⟨hw, hh, hp, ?_, ?_⟩
    · rw [hw]
      simp [mappedX, mappedIndex, toMIL_UINT]
    · unfold framePass pixelLoop
      rw [hdimW, hdimH]
      simp [rowLoop, colLoop, hbody]
  refine ⟨hcb, key none ?_, key (some sampleOtherFormat) ?_⟩
  · intro c hc
    cases hc
  · intro c hc
    cases hc
    simp [sampleOtherFormat]

/-! ## The exit status after an SDK exception (C3) -/

/-- C3, evaluated where it fails.  When an SDK call raises `rs2::error` or
`std::exception`, `InterfaceRealSense` prints a diagnostic, waits for a key and
returns `EXIT_FAILURE`; `main` discards that value and returns 0, which is not
`EXIT_FAILURE`. -/
theorem main_discards_failure_status (f a w : String) :
    (InterfaceRealSense (TryOutcome.rs2_error f a w)).status = EXIT_FAILURE ∧
    (InterfaceRealSense (TryOutcome.rs2_error f a w)).cerr ≠ [] ∧
    (InterfaceRealSense (TryOutcome.std_exception w)).status = EXIT_FAILURE ∧
    (InterfaceRealSense (TryOutcome.std_exception w)).cerr = [w] ∧
    (main true (TryOutcome.rs2_error f a w)).cerr
      = (InterfaceRealSense (TryOutcome.rs2_error f a w)).cerr ∧
    (main true (TryOutcome.rs2_error f a w)).status = 0 ∧
    (main true (TryOutcome.std_exception w)).status = 0 ∧
    (main true (TryOutcome.rs2_error f a w)).status ≠ EXIT_FAILURE ∧
    (main true (TryOutcome.std_exception w)).status ≠ EXIT_FAILURE := by
  simp [InterfaceRealSense, main, EXIT_FAILURE]

end RealSenseMXSP4
